import Mathlib

/-!
Verification development for the KIT-ILIAS-downloader crawl engine
(src/main.rs, src/util.rs).  The Rust source is shallowly embedded:
strings are Lean `String`s, fallible operations (`unwrap`, `?`) return
`Option`, the task scheduler is a step relation over counter states.
-/

set_option autoImplicit false

/-! ## String primitives mirroring the Rust standard library -/

/-- Rust `str::starts_with(prefix)`. -/
def startsWithS (s p : String) : Bool :=
  p.data.isPrefixOf s.data

/-- Rust `str::ends_with(suffix)`. -/
def endsWithS (s p : String) : Bool :=
  p.data.isSuffixOf s.data

/-- Rust `str::contains(pat)` on char lists. -/
def isInfixL (pat : List Char) : List Char → Bool
  | [] => pat.isEmpty
  | c :: rest => pat.isPrefixOf (c :: rest) || isInfixL pat rest

/-- Rust `str::contains(pat)`. -/
def containsS (s pat : String) : Bool :=
  isInfixL pat.data s.data

/-- Rust `str::split(sep: char)`: the list of (possibly empty) segments
between occurrences of `sep`.  Always nonempty. -/
def splitOnChar (sep : Char) : List Char → List (List Char)
  | [] => [[]]
  | c :: rest =>
    match splitOnChar sep rest with
    | [] => [[]]
    | s :: ss => if c = sep then [] :: s :: ss else (c :: s) :: ss

/-- Rust `str::trim` at the char-list level (ASCII whitespace suffices here). -/
def trimChars (l : List Char) : List Char :=
  ((l.dropWhile Char.isWhitespace).reverse.dropWhile Char.isWhitespace).reverse

/-- Rust `str::trim`. -/
def trimS (s : String) : String :=
  String.mk (trimChars s.data)

/-- Drop the first `n` chars (models a Rust byte-index slice `&s[n..]` on an
ASCII prefix of known length `n`). -/
def strDropChars (s : String) : Nat → String :=
  fun n => String.mk (s.data.drop n)

/-- Rust `char::to_ascii_lowercase` mapped over a string
(`str::to_ascii_lowercase`); Lean's `Char.toLower` is ASCII-only, matching. -/
def lowerAscii (s : String) : String :=
  String.mk (s.data.map Char.toLower)

def parseDigits (l : List Char) : Option Nat :=
  if l ≠ [] ∧ l.all Char.isDigit then
    some (l.foldl (fun a c => a * 10 + (c.toNat - 48)) 0)
  else none

/-- Rust `str::parse::<usize>()`: optional leading `+`, then one or more
ASCII digits (overflow is not modelled; post counts are small). -/
def parseUsize (s : String) : Option Nat :=
  match s.data with
  | '+' :: rest => parseDigits rest
  | l => parseDigits l

def isHexDigitC (c : Char) : Bool :=
  c.isDigit || (decide ('a' ≤ c) && decide (c ≤ 'f')) || (decide ('A' ≤ c) && decide (c ≤ 'F'))

def hexValC (c : Char) : Nat :=
  if c.isDigit then c.toNat - 48
  else if decide ('a' ≤ c) then c.toNat - 87
  else c.toNat - 55

/-- Percent-decoding as done by `url::Url::query_pairs()` (form-urlencoded):
`+` becomes a space, `%XY` with two hex digits becomes the coded character,
malformed `%` sequences pass through.  (Multi-byte UTF-8 percent sequences
are not reassembled; all inputs of interest are ASCII.) -/
def percentDecode : List Char → List Char
  | [] => []
  | '+' :: rest => ' ' :: percentDecode rest
  | '%' :: a :: b :: rest =>
    if isHexDigitC a && isHexDigitC b then
      Char.ofNat (hexValC a * 16 + hexValC b) :: percentDecode rest
    else
      '%' :: percentDecode (a :: b :: rest)
  | c :: rest => c :: percentDecode rest

/-- The query component of an href, as seen by
`Url::parse(&format!("http://domain/{}", href))`: the part after the first
`?` and before any `#`. -/
def queryOf (href : String) : List Char :=
  (((href.data.takeWhile (fun c => c ≠ '#')).dropWhile (fun c => c ≠ '?')).drop 1)

/-- `Url::query_pairs()`: split the query on `&`, drop empty segments, split
each segment at the first `=` (a segment without `=` has value `""`), and
percent-decode key and value. -/
def queryPairs (href : String) : List (String × String) :=
  (((splitOnChar '&' (queryOf href)).filter (fun seg => seg ≠ [])).map
    (fun seg =>
      let k := seg.takeWhile (fun c => c ≠ '=')
      let v := if k.length = seg.length then [] else seg.drop (k.length + 1)
      (String.mk (percentDecode k), String.mk (percentDecode v))))

/-! ## Data model: `URL` (main.rs:231-301) -/

/-- main.rs:233-244 `struct URL`. -/
structure URL where
  url : String
  baseClass : String
  cmdClass : Option String
  cmdNode : Option String
  cmd : Option String
  forwardCmd : Option String
  thr_pk : Option String
  pos_pk : Option String
  ref_id : String
  target : Option String
deriving DecidableEq, Repr

/-- main.rs:248-261 `URL::raw`. -/
def URL.raw (u : String) : URL :=
  { url := u, baseClass := "", cmdClass := none, cmdNode := none, cmd := none,
    forwardCmd := none, thr_pk := none, pos_pk := none, ref_id := "", target := none }

/-- One iteration of the `for (k, v) in url.query_pairs()` match
(main.rs:274-287); later pairs overwrite earlier ones. -/
def applyPair (u : URL) (kv : String × String) : URL :=
  match kv.1 with
  | "baseClass" => { u with baseClass := kv.2 }
  | "cmdClass" => { u with cmdClass := some kv.2 }
  | "cmdNode" => { u with cmdNode := some kv.2 }
  | "cmd" => { u with cmd := some kv.2 }
  | "forwardCmd" => { u with forwardCmd := some kv.2 }
  | "thr_pk" => { u with thr_pk := some kv.2 }
  | "pos_pk" => { u with pos_pk := some kv.2 }
  | "ref_id" => { u with ref_id := kv.2 }
  | "target" => { u with target := some kv.2 }
  | _ => u

/-- main.rs:263-300 `URL::from_href`. -/
def from_href (href : String) : URL :=
  (queryPairs href).foldl applyPair (URL.raw href)

/-! ## Data model: `Object` (main.rs:41-129) and the classifier (main.rs:131-228) -/

/-- main.rs:41-81 `enum Object`. -/
inductive Object where
  | Course (name : String) (url : URL)
  | Folder (name : String) (url : URL)
  | File (name : String) (url : URL)
  | Forum (name : String) (url : URL)
  | Thread (url : URL)
  | Wiki (name : String) (url : URL)
  | ExerciseHandler (name : String) (url : URL)
  | PluginDispatch (name : String) (url : URL)
  | Video (url : URL)
  | Generic (name : String) (url : URL)
deriving DecidableEq, Repr

/-- main.rs:86-99 `Object::name`; the `Thread` arm unwraps `thr_pk`, so the
result is `Option` (`none` models the panic). -/
def objName : Object → Option String
  | .Course n _ => some n
  | .Folder n _ => some n
  | .File n _ => some n
  | .Forum n _ => some n
  | .Thread u => u.thr_pk
  | .Wiki n _ => some n
  | .ExerciseHandler n _ => some n
  | .PluginDispatch n _ => some n
  | .Video u => some u.url
  | .Generic n _ => some n

/-- main.rs:101-114 `Object::url`. -/
def urlOf : Object → URL
  | .Course _ u => u
  | .Folder _ u => u
  | .File _ u => u
  | .Forum _ u => u
  | .Thread u => u
  | .Wiki _ u => u
  | .ExerciseHandler _ u => u
  | .PluginDispatch _ u => u
  | .Video u => u
  | .Generic _ u => u

/-- main.rs:116-129 `Object::kind`. -/
def kindOf : Object → String
  | .Course _ _ => "course"
  | .Folder _ _ => "folder"
  | .File _ _ => "file"
  | .Forum _ _ => "forum"
  | .Thread _ => "thread"
  | .Wiki _ _ => "wiki"
  | .ExerciseHandler _ _ => "exercise handler"
  | .PluginDispatch _ _ => "plugin dispatch"
  | .Video _ => "video"
  | .Generic _ _ => "generic"

/-- The classifier's input: a hyperlink's collected text and href, plus the
texts of the `span.il_ItemProperty` elements of the enclosing item (only the
`file_` branch reads them). -/
structure Link where
  text : String
  href : String
  itemProps : List String
deriving DecidableEq, Repr

/-- main.rs:132: `link.text().collect::<String>().replace('/', "-").trim()`. -/
def nameFromText (t : String) : String :=
  trimS (String.mk (t.data.map (fun c => if c = '/' then '-' else c)))

/-- main.rs:26 `ILIAS_URL`. -/
def ILIAS_URL : String := "https://ilias.studium.kit.edu/"

/-- The absolute-URL test of main.rs:141. -/
def gotoUrlMarker : String := "https://ilias.studium.kit.edu/goto.php"

/-- `target.split('_').nth(1)` as used at main.rs:156/165/180. -/
def secondSeg (t : String) : Option String :=
  ((splitOnChar '_' t.data).get? 1).map String.mk

/-- main.rs:202-206: version suffix and extension appended to a File name.
`ver` is the trimmed text of the span read for the version, `extRaw` the text
of the first `span.il_ItemProperty`; `&version[9..]` drops the 9-byte ASCII
prefix `"Version: "`. -/
def fileNameFor (name verRaw extRaw : String) : String :=
  (if startsWithS (trimS verRaw) "Version: " then
    name ++ "_v" ++ strDropChars (trimS verRaw) 9
  else name) ++ "." ++ trimS extRaw

/-- main.rs:141-210: the `goto.php` router-style sub-classification, reached
only when the raw href starts with the absolute `gotoUrlMarker`.  All
`url.target.as_ref().map(..).unwrap_or(false)` checks are false when `target`
is absent, falling through to `Generic` (main.rs:209).  The `file_` branch
reads `span.il_ItemProperty` texts: `item_props.next()` takes the first and
the following `item_props.nth(1)` skips one more, i.e. index 2; missing spans
model the source's `unwrap` panics as `none`. -/
def fromLinkGoto (props : List String) (name : String) (url : URL) : Option Object :=
  match url.target with
  | none => some (.Generic name url)
  | some t =>
    if startsWithS t "wiki_" then some (.Wiki name url)
    else if startsWithS t "root_" then some (.Generic name url)
    else if startsWithS t "crs_" then
      (secondSeg t).map (fun rid => .Course name { url with ref_id := rid })
    else if startsWithS t "frm_" then
      (secondSeg t).map (fun rid => .Forum name { url with ref_id := rid })
    else if startsWithS t "lm_" then some (.Generic name url)
    else if startsWithS t "fold_" then
      (secondSeg t).map (fun rid => .Folder name { url with ref_id := rid })
    else if startsWithS t "file_" then
      if endsWithS t "download" = false then some (.Generic name url)
      else
        match props.get? 0, props.get? 2 with
        | some extRaw, some verRaw => some (.File (fileNameFor name verRaw extRaw) url)
        | _, _ => none
    else some (.Generic name url)

/-- main.rs:216-227: dispatch on the ASCII-lowercased `baseClass`. -/
def fromLinkBase (name : String) (url : URL) : Option Object :=
  match lowerAscii url.baseClass with
  | "ilexercisehandlergui" => some (.ExerciseHandler name url)
  | "ililwikihandlergui" => some (.Wiki name url)
  | "ilrepositorygui" =>
    match url.cmd with
    | some "view" => some (.Folder name url)
    | some _ => some (.Generic name url)
    | none => some (.Course name url)
  | "ilobjplugindispatchgui" => some (.PluginDispatch name url)
  | _ => some (.Generic name url)

/-- main.rs:131-228 `Object::from_link`: rule 1 (thread primary key), the
`goto.php` router block (guarded by the absolute-URL prefix test of
main.rs:141), the `showThreads` rule, then the `baseClass` dispatch. -/
def from_link (l : Link) : Option Object :=
  if (from_href l.href).thr_pk.isSome then some (.Thread (from_href l.href))
  else if startsWithS (from_href l.href).url gotoUrlMarker then
    fromLinkGoto l.itemProps (nameFromText l.text) (from_href l.href)
  else if (from_href l.href).cmd = some "showThreads" then
    some (.Forum (nameFromText l.text) (from_href l.href))
  else fromLinkBase (nameFromText l.text) (from_href l.href)

/-! ## util.rs: the path sanitizer (unused by main.rs) -/

/-- util.rs:30 `INVALID`. -/
def INVALID : List Char := ['/', '\\', ':', '<', '>', '"', '|', '?', '*', '\n', '\t']

/-- util.rs:32-34 `file_escape` (replaces every `INVALID` char with `-`);
note `main.rs` never calls it — `mod util` is not even declared there. -/
def file_escape (s : String) : String :=
  String.mk (s.data.map (fun c => if c ∈ INVALID then '-' else c))

/-! ## Forum handler: per-row decision (main.rs:723-752) -/

/-- A 6-cell forum table row: the thread link found in `cells[1]` and the
first text node of `cells[3]` (`cells[3].text().next()`, whose absence is the
source's `unwrap` panic). -/
structure ForumRowIn where
  link : Link
  availFirstText : Option String
deriving Repr

/-- main.rs:728-751 for one 6-cell row.  `none` models an error/panic
escaping the row (missing `thr_pk`, missing text node, unparsable count);
`some none` means the row is skipped (`continue`), `some (some o)` means a
child task for `o` is submitted.  `saved` is the external
`fs::read_dir(&path)` entry count (0 when the directory is missing). -/
def forumRowTask (row : ForumRowIn) (saved : Nat) (force : Bool) : Option (Option Object) :=
  match from_link row.link with
  | none => none
  | some obj =>
    match (urlOf obj).thr_pk with
    | none => none
    | some _ =>
      match row.availFirstText with
      | none => none
      | some t =>
        match parseUsize (trimS t) with
        | none => none
        | some available =>
          if available ≤ saved ∧ force = false then some none
          else some (some obj)

/-! ## Course handler: content-tree fallback (main.rs:549-567) -/

/-- The course-page marker checked at main.rs:558. -/
def joinMarker : String := "input[name=\"cmd[join]\""

inductive CourseOutcome where
  | silentSkip
  | children (warned : Bool) (items : List Object)
deriving DecidableEq, Repr

/-- main.rs:549-567, with the external fetches as inputs: `pageHtml` is the
downloaded course page text, `cmdNode` the result of the
`cmd_node_regex.find` (`none` = error return), `treeResult` the result of
`get_course_content_tree` (`none` = failure), `flat` the flat listing from
`get_course_content`.  `CourseOutcome.silentSkip` is the `return Ok(())` at
main.rs:559 (no children, nothing logged); `children true flat` is the
fallback that prints the warning at main.rs:561. -/
def courseContentStep (contentTree : Bool) (pageHtml : String) (cmdNode : Option String)
    (treeResult : Option (List Object)) (flat : List Object) : Option CourseOutcome :=
  if contentTree then
    match cmdNode with
    | none => none
    | some _ =>
      match treeResult with
      | some tree => some (.children false tree)
      | none =>
        if containsS pageHtml joinMarker then some .silentSkip
        else some (.children true flat)
  else some (.children false flat)

/-! ## Video handler: script-JSON extraction (main.rs:654-693) -/

/-- A model of `serde_json::Value`. -/
inductive Json where
  | null
  | jbool (b : Bool)
  | jnum (n : Int)
  | jstr (s : String)
  | jarr (elems : List Json)
  | jobj (fields : List (String × Json))

/-- `Value` string-indexing `v[key]`: object lookup, `Null` when absent or
when `v` is not an object. -/
def jIndexKey : Json → String → Json
  | .jobj fields, k => (fields.lookup k).getD .null
  | _, _ => .null

/-- `Value` array-indexing `v[i]`. -/
def jIndexNat : Json → Nat → Json
  | .jarr xs, i => (xs.get? i).getD .null
  | _, _ => .null

/-- `Value::as_str`. -/
def jAsStr : Json → Option String
  | .jstr s => some s
  | _ => none

/-- main.rs:685: `json["streams"][0]["sources"]["mp4"][0]["src"].as_str()`. -/
def xoctMp4Src (j : Json) : Option String :=
  jAsStr (jIndexKey (jIndexNat (jIndexKey (jIndexKey (jIndexNat (jIndexKey j "streams") 0) "sources") "mp4") 0) "src")

/-- The prefix of `l` before the first occurrence of `pat`; the whole list if
`pat` never occurs.  This is `split(pat).nth(0)` in Rust. -/
def takeUntilSub (pat : List Char) : List Char → List Char
  | [] => []
  | c :: rest =>
    if pat.isPrefixOf (c :: rest) then []
    else c :: takeUntilSub pat rest

/-- main.rs:679: `json.split(",\n").nth(0)`. -/
def xoctTruncate (cap : String) : String :=
  String.mk (takeUntilSub [',', '\n'] cap.data)

/-- main.rs:433-437 `ILIAS::download`: absolute references pass through, all
others are resolved against `ILIAS_URL`. -/
def resolveUrl (u : String) : String :=
  if startsWithS u "http" || startsWithS u "ilias.studium.kit.edu" then u
  else ILIAS_URL ++ u

inductive VideoOutcome where
  | skipped
  | failed
  | download (finalUrl : String)
deriving Repr

/-- main.rs:654-693 up to the final stream download, with external effects as
inputs: `destExists` is `fs::metadata(&path).is_ok()`, `capture` the first
capture group of `XOCT_REGEX` over the fetched player page (`none` = no
match), `parseJson` the `serde_json::from_str` capability.  `failed` covers
the error returns and the `as_str().unwrap()` panic; `download u` means the
handler stream-downloads `u`. -/
def videoProcess (noVideos force destExists : Bool) (capture : Option String)
    (parseJson : String → Option Json) : VideoOutcome :=
  if noVideos then .skipped
  else if force = false ∧ destExists = true then .skipped
  else
    match capture with
    | none => .failed
    | some cap =>
      match parseJson (trimS (xoctTruncate cap)) with
      | none => .failed
      | some j =>
        match xoctMp4Src j with
        | none => .failed
        | some src => .download (resolveUrl src)

/-! ## Scheduler counters: events of a single task -/

/-- Counter/log events emitted by a task, in program order.
`incQ`/`incR`/`decR`/`decQ` are the `TASKS_QUEUED`/`TASKS_RUNNING`
increments and decrements. -/
inductive Ev where
  | incQ
  | incR
  | decR
  | decQ
  | logErr (path chain : String)
  | logCreateErr (path : String)
  | logWriteErr (path : String)
deriving DecidableEq, Repr

inductive HandlerOutcome where
  | ok
  | err (chain : String)
  | panicked
deriving DecidableEq, Repr

/-- main.rs:495-507 `process_gracefully` together with the panic hook
installed at main.rs:445-450: queued is incremented on entry, running after
the gate; on normal return or a caught handler error (logged with the task's
path and causal chain, main.rs:503) the task decrements running then queued;
on a panic the hook performs the same two decrements in the same order and
the skipped statements after `process` emit nothing. -/
def processGracefullyEvents (pathText : String) (outcome : HandlerOutcome) : List Ev :=
  [Ev.incQ, Ev.incR] ++
    (match outcome with
     | .ok => [Ev.decR, Ev.decQ]
     | .err chain => [Ev.logErr pathText chain, Ev.decR, Ev.decQ]
     | .panicked => [Ev.decR, Ev.decQ])

/-- main.rs:783-803: the inline forum-post writer task.  `createOk` is
whether `AsyncFile::create` succeeded, `writeOk` whether `tokio::io::copy`
succeeded.  On a create failure the task logs and `return`s at main.rs:796
before reaching the decrements at main.rs:801-802. -/
def threadWriterEvents (pathText : String) (createOk writeOk : Bool) : List Ev :=
  [Ev.incQ, Ev.incR] ++
    (if createOk = false then [Ev.logCreateErr pathText]
     else (if writeOk then [] else [Ev.logWriteErr pathText]) ++ [Ev.decR, Ev.decQ])

/-! ## Scheduler: concurrency-gate step relation (main.rs:495-507) -/

/-- Scheduler counter state plus the number of tasks at each control point of
`process_gracefully`: `waiting` tasks have incremented `TASKS_QUEUED` and sit
in the busy-wait gate (main.rs:497-499), `ready` tasks have observed
`running < jobs` and left the gate but have not yet executed
`*TASKS_RUNNING.lock() += 1` (main.rs:500), `running` is `TASKS_RUNNING`. -/
structure SchedState where
  waiting : Nat
  ready : Nat
  running : Nat
deriving DecidableEq, Repr

/-- The faithful step relation of the code's gate: the gate check
(main.rs:497) and the increment (main.rs:500) are separate lock
acquisitions, so passing the gate and incrementing `running` are distinct
steps. -/
inductive SchedStep (jobs : Nat) : SchedState → SchedState → Prop where
  | submit (s : SchedState) :
      SchedStep jobs s { s with waiting := s.waiting + 1 }
  | gatePass (s : SchedState) (hw : 0 < s.waiting) (hr : s.running < jobs) :
      SchedStep jobs s { s with waiting := s.waiting - 1, ready := s.ready + 1 }
  | dispatch (s : SchedState) (hr : 0 < s.ready) :
      SchedStep jobs s { s with ready := s.ready - 1, running := s.running + 1 }
  | finish (s : SchedState) (hr : 0 < s.running) :
      SchedStep jobs s { s with running := s.running - 1 }

def schedInit : SchedState := { waiting := 0, ready := 0, running := 0 }

def SchedReachable (jobs : Nat) (s : SchedState) : Prop :=
  Relation.ReflTransGen (SchedStep jobs) schedInit s

/-- The repaired gate in which the check `running < jobs` and the increment
happen as one atomic step (what the spec's bound would require). -/
inductive SchedStepAtomic (jobs : Nat) : SchedState → SchedState → Prop where
  | submit (s : SchedState) :
      SchedStepAtomic jobs s { s with waiting := s.waiting + 1 }
  | dispatch (s : SchedState) (hw : 0 < s.waiting) (hr : s.running < jobs) :
      SchedStepAtomic jobs s { s with waiting := s.waiting - 1, running := s.running + 1 }
  | finish (s : SchedState) (hr : 0 < s.running) :
      SchedStepAtomic jobs s { s with running := s.running - 1 }

def SchedReachableAtomic (jobs : Nat) (s : SchedState) : Prop :=
  Relation.ReflTransGen (SchedStepAtomic jobs) schedInit s

/-- A concrete player-JSON value used to exercise the Video pipeline. -/
def xoctJsonExample : Json :=
  Json.jobj [("streams", Json.jarr [Json.jobj
    [("sources", Json.jobj [("mp4", Json.jarr [Json.jobj
      [("src", Json.jstr "https://host/clip.mp4")]])])]])]

/-- A concrete stand-in for `serde_json::from_str` used to exercise the
Video pipeline. -/
def xoctParseExample : String → Option Json :=
  fun s => if s = "VIDEODATA" then some xoctJsonExample else none

/-! # Theorems -/

/-! ## Shared helper lemmas -/

lemma splitOnChar_ne_nil (sep : Char) (l : List Char) : splitOnChar sep l ≠ [] := by
  cases l with
  | nil => simp [splitOnChar]
  | cons c rest =>
    simp only [splitOnChar]
    split
    · simp
    · split <;> simp

lemma splitOnChar_append_notin (sep : Char) (pre r : List Char) (h : sep ∉ pre) :
    splitOnChar sep (pre ++ sep :: r) = pre :: splitOnChar sep r := by
  induction pre with
  | nil =>
    obtain ⟨s, ss, hs⟩ := List.exists_cons_of_ne_nil (splitOnChar_ne_nil sep r)
    simp [splitOnChar, hs]
  | cons c cs ih =>
    have hcs : sep ∉ cs := fun hm => h (List.mem_cons_of_mem _ hm)
    have hc : ¬ (c = sep) := fun hc => h (by simp [hc])
    rw [List.cons_append]
    simp [splitOnChar, ih hcs, hc]

lemma secondSeg_of_seg (pre r : List Char) (h : ('_' : Char) ∉ pre) :
    ∃ s ss, splitOnChar '_' r = s :: ss ∧
      secondSeg (String.mk (pre ++ '_' :: r)) = some (String.mk s) := by
  obtain ⟨s, ss, hs⟩ := List.exists_cons_of_ne_nil (splitOnChar_ne_nil '_' r)
  refine ⟨s, ss, hs, ?_⟩
  unfold secondSeg
  rw [show (String.mk (pre ++ '_' :: r)).data = pre ++ '_' :: r from rfl,
    splitOnChar_append_notin _ _ _ h, hs]
  rfl

/-- Rule 1 of the classifier: a present `thr_pk` short-circuits to `Thread`. -/
lemma from_link_thr_pk_helper (l : Link) (v : String)
    (h : (from_href l.href).thr_pk = some v) :
    from_link l = some (Object.Thread (from_href l.href)) := by
  unfold from_link
  simp [h]

/-- When `thr_pk` is absent and the raw href starts with the absolute
`goto.php` prefix, classification continues in the router block. -/
lemma from_link_eq_goto (l : Link) (h1 : (from_href l.href).thr_pk = none)
    (h2 : startsWithS (from_href l.href).url gotoUrlMarker = true) :
    from_link l = fromLinkGoto l.itemProps (nameFromText l.text) (from_href l.href) := by
  unfold from_link
  simp [h1, h2]

lemma crs_starts (r : String) : startsWithS ("crs_" ++ r) "crs_" = true := by
  obtain ⟨l⟩ := r
  unfold startsWithS
  rw [show ("crs_" ++ String.mk l).data = "crs_".data ++ l from rfl]
  exact List.isPrefixOf_iff_prefix.mpr (List.prefix_append _ _)

lemma crs_not_wiki (r : String) : startsWithS ("crs_" ++ r) "wiki_" = false := by
  obtain ⟨l⟩ := r; rfl

lemma crs_not_root (r : String) : startsWithS ("crs_" ++ r) "root_" = false := by
  obtain ⟨l⟩ := r; rfl

lemma file_starts (r : String) : startsWithS ("file_" ++ r) "file_" = true := by
  obtain ⟨l⟩ := r
  unfold startsWithS
  rw [show ("file_" ++ String.mk l).data = "file_".data ++ l from rfl]
  exact List.isPrefixOf_iff_prefix.mpr (List.prefix_append _ _)

lemma file_not_wiki (r : String) : startsWithS ("file_" ++ r) "wiki_" = false := by
  obtain ⟨l⟩ := r; rfl

lemma file_not_root (r : String) : startsWithS ("file_" ++ r) "root_" = false := by
  obtain ⟨l⟩ := r; rfl

lemma file_not_crs (r : String) : startsWithS ("file_" ++ r) "crs_" = false := by
  obtain ⟨l⟩ := r; rfl

lemma file_not_frm (r : String) : startsWithS ("file_" ++ r) "frm_" = false := by
  obtain ⟨l⟩ := r; rfl

lemma file_not_lm (r : String) : startsWithS ("file_" ++ r) "lm_" = false := by
  obtain ⟨l⟩ := r; rfl

lemma file_not_fold (r : String) : startsWithS ("file_" ++ r) "fold_" = false := by
  obtain ⟨l⟩ := r; rfl

/-- Every name-carrying node produced by the router block carries the name
passed in (`File` nodes, which append suffixes, excluded). -/
lemma fromLinkGoto_name (props : List String) (n : String) (u : URL) (o : Object)
    (h : fromLinkGoto props n u = some o) (hf : kindOf o ≠ "file") :
    objName o = some n := by
  unfold fromLinkGoto at h
  split at h
  · injection h with h; subst h; rfl
  · split_ifs at h
    · injection h with h; subst h; rfl
    · injection h with h; subst h; rfl
    · obtain ⟨rid, -, rfl⟩ := Option.map_eq_some'.mp h; rfl
    · obtain ⟨rid, -, rfl⟩ := Option.map_eq_some'.mp h; rfl
    · injection h with h; subst h; rfl
    · obtain ⟨rid, -, rfl⟩ := Option.map_eq_some'.mp h; rfl
    · injection h with h; subst h; rfl
    · split at h
      · injection h with h
        subst h
        exact absurd rfl hf
      · exact absurd h (by simp)
    · injection h with h; subst h; rfl

/-- Every node produced by the `baseClass` dispatch carries the name passed
in. -/
lemma fromLinkBase_name (n : String) (u : URL) (o : Object)
    (h : fromLinkBase n u = some o) : objName o = some n := by
  unfold fromLinkBase at h
  split at h
  · injection h with h; subst h; rfl
  · injection h with h; subst h; rfl
  · split at h <;> (injection h with h; subst h; rfl)
  · injection h with h; subst h; rfl
  · injection h with h; subst h; rfl

/-- `nameFromText` never leaves a `/` in its output (main.rs:132 replaces
each `/` with `-` before trimming). -/
lemma slash_notin_nameFromText (t : String) : ('/' : Char) ∉ (nameFromText t).data := by
  intro hmem
  have h0 : ('/' : Char) ∈ trimChars (t.data.map fun c => if c = '/' then '-' else c) := hmem
  unfold trimChars at h0
  rw [List.mem_reverse] at h0
  have h1 : ('/' : Char) ∈ ((t.data.map fun c => if c = '/' then '-' else c).dropWhile Char.isWhitespace).reverse :=
    (List.dropWhile_sublist (p := Char.isWhitespace)).subset h0
  rw [List.mem_reverse] at h1
  have h2 : ('/' : Char) ∈ (t.data.map fun c => if c = '/' then '-' else c) :=
    (List.dropWhile_sublist (p := Char.isWhitespace)).subset h1
  obtain ⟨c, -, heq⟩ := List.mem_map.mp h2
  by_cases hc : c = '/'
  · rw [if_pos hc] at heq
    exact absurd heq (by decide)
  · rw [if_neg hc] at heq
    exact hc heq

/-! ## C1 — concurrency bound of the scheduler gate -/

/-- C1 counterexample: the claim "in every reachable state of the scheduler's
step relation, `running ≤ jobs`" is false as stated.  With `jobs = 1`, two
submitted tasks can both observe `running < jobs` in the busy-wait gate
(main.rs:497) before either executes the separate increment (main.rs:500);
after both increments the reachable state has `running = 2 > 1`. -/
theorem sched_running_exceeds_jobs_cex :
    SchedReachable 1 { waiting := 0, ready := 0, running := 2 } ∧ ¬ (2 ≤ 1) := by
  constructor
  · exact Relation.ReflTransGen.tail
      (Relation.ReflTransGen.tail
        (Relation.ReflTransGen.tail
          (Relation.ReflTransGen.tail
            (Relation.ReflTransGen.tail
              (Relation.ReflTransGen.tail Relation.ReflTransGen.refl
                (SchedStep.submit schedInit))
              (SchedStep.submit { waiting := 1, ready := 0, running := 0 }))
            (SchedStep.gatePass { waiting := 2, ready := 0, running := 0 } (by decide) (by decide)))
          (SchedStep.gatePass { waiting := 1, ready := 1, running := 0 } (by decide) (by decide)))
        (SchedStep.dispatch { waiting := 0, ready := 2, running := 0 } (by decide)))
      (SchedStep.dispatch { waiting := 0, ready := 1, running := 1 } (by decide))
  · decide

/-- C1 (amended): the bound `running ≤ jobs` does hold in every reachable
state once the gate check and the `running` increment are one atomic
dispatch step (the discipline the spec's bound requires); the code's
separate check and increment admit the counterexample above. -/
theorem sched_atomic_running_le_jobs (jobs : Nat) (s : SchedState)
    (h : SchedReachableAtomic jobs s) : s.running ≤ jobs := by
  unfold SchedReachableAtomic at h
  induction h with
  | refl => exact Nat.zero_le jobs
  | tail hab hstep ih =>
    cases hstep with
    | submit => exact ih
    | dispatch hw hr => exact hr
    | finish hr => exact le_trans (Nat.sub_le _ _) ih

/-- C1 witness: a state reached by submitting one task and atomically
dispatching it under `jobs = 1` satisfies the bound. -/
theorem sched_atomic_running_le_jobs_witness :
    ({ waiting := 0, ready := 0, running := 1 } : SchedState).running ≤ 1 :=
  sched_atomic_running_le_jobs 1 _
    (Relation.ReflTransGen.tail
      (Relation.ReflTransGen.tail Relation.ReflTransGen.refl
        (SchedStepAtomic.submit schedInit))
      (SchedStepAtomic.dispatch { waiting := 1, ready := 0, running := 0 } (by decide) (by decide)))

/-! ## C2 — guaranteed release of the outstanding-work counters -/

/-- C2: the guaranteed-release discipline is violated by the inline forum-post
writer task (main.rs:783-803): when `AsyncFile::create` fails, the task logs
and returns at main.rs:796 before the decrements at main.rs:801-802, so
neither `TASKS_RUNNING` nor `TASKS_QUEUED` is ever decremented — the counters
leak and the completion wait (main.rs:478) never terminates.  By contrast, a
task dispatched through `process_gracefully` does decrement both exactly
once even on a caught handler error. -/
theorem thread_writer_create_error_leaks_counters :
    threadWriterEvents "dest" false true = [Ev.incQ, Ev.incR, Ev.logCreateErr "dest"] ∧
    (threadWriterEvents "dest" false true).count Ev.decR = 0 ∧
    (threadWriterEvents "dest" false true).count Ev.decQ = 0 ∧
    (processGracefullyEvents "dest" (HandlerOutcome.err "cause")).count Ev.decR = 1 ∧
    (processGracefullyEvents "dest" (HandlerOutcome.err "cause")).count Ev.decQ = 1 :=
  ⟨rfl, rfl, rfl, rfl, rfl⟩

/-! ## C3 — name sanitization in the classifier -/

/-- C3 counterexample: the claim that every classified node's name has all of
`/ \ : < > " | ? *`, tab and newline replaced is false — `from_link`
(main.rs:132) replaces only `/`; a link text `a:b` yields a node whose name
still contains `:`, one of util.rs's `INVALID` path characters. -/
theorem from_link_name_keeps_colon_cex :
    (from_link { text := "a:b", href := "x.php", itemProps := [] }).bind objName = some "a:b" ∧
    (':' : Char) ∈ ("a:b" : String).data ∧ (':' : Char) ∈ INVALID :=
  ⟨rfl, by decide, by decide⟩

/-- C3 (amended): names produced by the classifier are the link text with
only `/` replaced by `-` and surrounding whitespace trimmed — the name never
contains `/`, but may be empty and may retain the other path-unsafe
characters; `file_escape` (util.rs) is never applied.  (`File` nodes append
extension/version suffixes to this name; `Thread` nodes are keyed by
`thr_pk` instead.) -/
theorem from_link_name_only_slash_replaced (l : Link) (o : Object)
    (h : from_link l = some o) (hf : kindOf o ≠ "file") (ht : kindOf o ≠ "thread") :
    objName o = some (nameFromText l.text) ∧ ('/' : Char) ∉ (nameFromText l.text).data := by
  refine ⟨?_, slash_notin_nameFromText l.text⟩
  unfold from_link at h
  by_cases h1 : (from_href l.href).thr_pk.isSome
  · rw [if_pos h1] at h
    injection h with h
    subst h
    exact absurd rfl ht
  · rw [if_neg h1] at h
    by_cases h2 : startsWithS (from_href l.href).url gotoUrlMarker = true
    · rw [if_pos h2] at h
      exact fromLinkGoto_name _ _ _ _ h hf
    · rw [if_neg h2] at h
      by_cases h3 : (from_href l.href).cmd = some "showThreads"
      · rw [if_pos h3] at h
        injection h with h
        subst h
        rfl
      · rw [if_neg h3] at h
        exact fromLinkBase_name _ _ _ h

/-- C3 witness: a link text holding several path-unsafe characters and
surrounding whitespace classifies to a Generic node whose name keeps
`: < > *` and loses only the whitespace (and would lose any `/`). -/
theorem from_link_name_only_slash_replaced_witness :
    objName (Object.Generic "a:b<c>*d" (URL.raw "x.php")) = some (nameFromText " a:b<c>*d\t ") ∧
    ('/' : Char) ∉ (nameFromText " a:b<c>*d\t ").data :=
  from_link_name_only_slash_replaced
    { text := " a:b<c>*d\t ", href := "x.php", itemProps := [] }
    (Object.Generic "a:b<c>*d" (URL.raw "x.php"))
    (by rfl) (by decide) (by decide)

/-! ## C4 — a thread primary key always wins -/

/-- C4: whenever the parsed href carries a `thr_pk` value, `from_link`
returns a `Thread` node (main.rs:135-139) regardless of every other query
parameter or marker, and the node's `name()` is exactly that `thr_pk`
string (main.rs:92). -/
theorem from_link_thr_pk_thread (l : Link) (v : String)
    (h : (from_href l.href).thr_pk = some v) :
    from_link l = some (Object.Thread (from_href l.href)) ∧
    (from_link l).bind objName = some v := by
  have hl := from_link_thr_pk_helper l v h
  exact ⟨hl, by rw [hl]; simpa [objName] using h⟩

/-- C4 witness: an href carrying `thr_pk=55` together with a `crs_` target
and a repository `baseClass`/`cmd` (competing markers) still yields a
`Thread` keyed by `"55"`. -/
theorem from_link_thr_pk_thread_witness :
    from_link { text := "T", href := "ilias.php?baseClass=ilrepositorygui&cmd=view&thr_pk=55&target=crs_9_", itemProps := [] } =
      some (Object.Thread (from_href "ilias.php?baseClass=ilrepositorygui&cmd=view&thr_pk=55&target=crs_9_")) ∧
    (from_link { text := "T", href := "ilias.php?baseClass=ilrepositorygui&cmd=view&thr_pk=55&target=crs_9_", itemProps := [] }).bind objName = some "55" :=
  from_link_thr_pk_thread
    { text := "T", href := "ilias.php?baseClass=ilrepositorygui&cmd=view&thr_pk=55&target=crs_9_", itemProps := [] }
    "55" (by rfl)

/-! ## C5 — router-style `crs_` classification -/

/-- C5 counterexample: the claim covers "every router-style href of the form
`goto.php?target=crs_<id>_...`", but main.rs:141 requires the raw href to
start with the absolute `https://ilias.studium.kit.edu/goto.php`; the
relative href of the spec's scenario is classified `Generic` by the
`baseClass` fallback, not `Course`. -/
theorem relative_goto_crs_not_course_cex :
    (from_link { text := "Course A", href := "goto.php?target=crs_1234_&client_id=x", itemProps := [] }).map kindOf = some "generic" ∧
    "generic" ≠ "course" :=
  ⟨rfl, by decide⟩

/-- C5 (amended): for an href that starts with the absolute
`https://ilias.studium.kit.edu/goto.php` prefix, carries no `thr_pk`, and
whose `target` is `crs_<rest>`, `from_link` returns a `Course` whose
`ref_id` is the second underscore-delimited segment of `target` (the first
segment of `<rest>`), per main.rs:155-162. -/
theorem absolute_goto_crs_course (l : Link) (t r : String)
    (h1 : (from_href l.href).thr_pk = none)
    (h2 : startsWithS (from_href l.href).url gotoUrlMarker = true)
    (h3 : (from_href l.href).target = some t)
    (h4 : t = "crs_" ++ r) :
    ∃ s ss, splitOnChar '_' r.data = s :: ss ∧
      from_link l = some (Object.Course (nameFromText l.text)
        { from_href l.href with ref_id := String.mk s }) := by
  subst h4
  obtain ⟨s, ss, hs, hsec⟩ := secondSeg_of_seg ['c', 'r', 's'] r.data (by decide)
  refine ⟨s, ss, hs, ?_⟩
  rw [from_link_eq_goto l h1 h2]
  have hmk : ("crs_" ++ r) = String.mk (['c', 'r', 's'] ++ '_' :: r.data) := by
    obtain ⟨lr⟩ := r; rfl
  have hsec2 : secondSeg ("crs_" ++ r) = some (String.mk s) := by rw [hmk]; exact hsec
  simp [fromLinkGoto, h3, crs_not_wiki, crs_not_root, crs_starts, hsec2]

/-- C5 witness: the absolute form of the spec's scenario href yields a
`Course` with `ref_id = "1234"`. -/
theorem absolute_goto_crs_course_witness :
    ∃ s ss, splitOnChar '_' ("1234_" : String).data = s :: ss ∧
      from_link { text := "My Course", href := "https://ilias.studium.kit.edu/goto.php?target=crs_1234_&client_id=produktiv", itemProps := [] } =
        some (Object.Course (nameFromText "My Course")
          { from_href "https://ilias.studium.kit.edu/goto.php?target=crs_1234_&client_id=produktiv" with ref_id := String.mk s }) :=
  absolute_goto_crs_course
    { text := "My Course", href := "https://ilias.studium.kit.edu/goto.php?target=crs_1234_&client_id=produktiv", itemProps := [] }
    "crs_1234_" "1234_" (by rfl) (by rfl) (by rfl) (by rfl)

/-! ## C6 — the `file_` branch -/

/-- C6 counterexample: the claim says the `_v<version>` suffix is appended
exactly when the SECOND metadata span begins with `"Version: "`; but
main.rs:199-200 consumes the first span with `next()` and then calls
`nth(1)`, which skips one more span — the version is read from the THIRD
span.  With spans `["pdf", "Version: 7", "other"]` the claim predicts
`"Lecture_v7.pdf"` while the code produces `"Lecture.pdf"`. -/
theorem file_version_second_span_cex :
    (from_link { text := "Lecture", href := "https://ilias.studium.kit.edu/goto.php?target=file_99_download", itemProps := ["pdf", "Version: 7", "other"] }).bind objName = some "Lecture.pdf" ∧
    some "Lecture.pdf" ≠ some "Lecture_v7.pdf" :=
  ⟨rfl, by decide⟩

/-- C6 (amended): in the `file_` branch (main.rs:187-208), a target not
ending in `"download"` yields `Generic`; otherwise the extension is the
trimmed text of the FIRST `span.il_ItemProperty` and the `_v<version>`
suffix is appended exactly when the trimmed text of the THIRD span
(`next()` then `nth(1)`) begins with `"Version: "`, giving
`File "<title>[_v<version>].<ext>"` as computed by `fileNameFor`. -/
theorem file_branch_classification (l : Link) (t r : String)
    (h1 : (from_href l.href).thr_pk = none)
    (h2 : startsWithS (from_href l.href).url gotoUrlMarker = true)
    (h3 : (from_href l.href).target = some t)
    (h4 : t = "file_" ++ r) :
    (endsWithS t "download" = false →
      from_link l = some (Object.Generic (nameFromText l.text) (from_href l.href))) ∧
    (endsWithS t "download" = true →
      ∀ extRaw verRaw, l.itemProps.get? 0 = some extRaw → l.itemProps.get? 2 = some verRaw →
        from_link l = some (Object.File (fileNameFor (nameFromText l.text) verRaw extRaw) (from_href l.href))) := by
  subst h4
  constructor
  · intro hend
    rw [from_link_eq_goto l h1 h2]
    simp [fromLinkGoto, h3, file_not_wiki, file_not_root, file_not_crs, file_not_frm,
      file_not_lm, file_not_fold, file_starts, hend]
  · intro hend extRaw verRaw hp0 hp2
    rw [from_link_eq_goto l h1 h2]
    rw [List.get?_eq_getElem?] at hp0 hp2
    simp [fromLinkGoto, h3, file_not_wiki, file_not_root, file_not_crs, file_not_frm,
      file_not_lm, file_not_fold, file_starts, hend, hp0, hp2]

/-- C6 witness: target `file_99_download` with spans
`["pdf", "1,3 MB", "Version: 2"]` yields `File "Lecture_v2.pdf"`. -/
theorem file_branch_classification_witness :
    from_link { text := "Lecture", href := "https://ilias.studium.kit.edu/goto.php?target=file_99_download", itemProps := ["pdf", "1,3 MB", "Version: 2"] } =
      some (Object.File (fileNameFor (nameFromText "Lecture") "Version: 2" "pdf")
        (from_href "https://ilias.studium.kit.edu/goto.php?target=file_99_download")) ∧
    fileNameFor (nameFromText "Lecture") "Version: 2" "pdf" = "Lecture_v2.pdf" :=
  ⟨(file_branch_classification
      { text := "Lecture", href := "https://ilias.studium.kit.edu/goto.php?target=file_99_download", itemProps := ["pdf", "1,3 MB", "Version: 2"] }
      "file_99_download" "99_download" (by rfl) (by rfl) (by rfl) (by rfl)).2
    (by rfl) "pdf" "Version: 2" (by rfl) (by rfl),
   by rfl⟩

/-! ## C7 — forum row submission gate -/

/-- C7: for a 6-cell forum row whose thread link carries `thr_pk` and whose
post-count cell parses to `a`, a `Thread` child task is submitted iff
`a > saved ∨ force` and the row is skipped iff `a ≤ saved ∧ ¬force`
(main.rs:743-751). -/
theorem forum_row_submit_iff (row : ForumRowIn) (pk v : String) (a saved : Nat) (force : Bool)
    (hpk : (from_href row.link.href).thr_pk = some pk)
    (hav : row.availFirstText = some v)
    (hparse : parseUsize (trimS v) = some a) :
    (forumRowTask row saved force = some (some (Object.Thread (from_href row.link.href))) ↔
      (saved < a ∨ force = true)) ∧
    (forumRowTask row saved force = some none ↔ (a ≤ saved ∧ force = false)) := by
  have hl := from_link_thr_pk_helper row.link pk hpk
  have heq : forumRowTask row saved force =
      if a ≤ saved ∧ force = false then some none
      else some (some (Object.Thread (from_href row.link.href))) := by
    unfold forumRowTask
    rw [hl]
    simp [urlOf, hpk, hav, hparse]
  by_cases hc : a ≤ saved ∧ force = false
  · have hnd : ¬ (saved < a ∨ force = true) := by
      rintro (hlt | hf)
      · omega
      · rw [hc.2] at hf; exact Bool.false_ne_true hf
    rw [heq, if_pos hc]
    exact ⟨⟨fun hEq => absurd (by injection hEq) (by simp), fun hor => absurd hor hnd⟩,
      ⟨fun _ => hc, fun _ => rfl⟩⟩
  · have hd : saved < a ∨ force = true := by
      cases force with
      | false =>
        left
        by_contra hlt
        exact hc ⟨by omega, rfl⟩
      | true => right; rfl
    rw [heq, if_neg hc]
    exact ⟨⟨fun _ => hd, fun _ => rfl⟩,
      ⟨fun hEq => absurd (by injection hEq) (by simp), fun hAnd => absurd hAnd hc⟩⟩

/-- C7 witness: available `"10"` with 10 already-saved posts and no force
submits nothing; with 9 saved posts it submits the `Thread` task. -/
theorem forum_row_submit_iff_witness :
    forumRowTask { link := { text := "Thr", href := "x.php?thr_pk=321", itemProps := [] }, availFirstText := some " 10 " } 10 false = some none ∧
    forumRowTask { link := { text := "Thr", href := "x.php?thr_pk=321", itemProps := [] }, availFirstText := some " 10 " } 9 false =
      some (some (Object.Thread (from_href "x.php?thr_pk=321"))) :=
  ⟨(forum_row_submit_iff
      { link := { text := "Thr", href := "x.php?thr_pk=321", itemProps := [] }, availFirstText := some " 10 " }
      "321" " 10 " 10 10 false (by rfl) rfl (by rfl)).2.mpr ⟨by decide, rfl⟩,
   (forum_row_submit_iff
      { link := { text := "Thr", href := "x.php?thr_pk=321", itemProps := [] }, availFirstText := some " 10 " }
      "321" " 10 " 10 9 false (by rfl) rfl (by rfl)).1.mpr (Or.inl (by decide))⟩

/-! ## C8 — video stream-URL extraction -/

/-- C8: when the player-page regex yields a capture whose truncation at the
first `","`+newline boundary parses to JSON `j`, the Video handler
(main.rs:654-693) downloads exactly `streams[0].sources.mp4[0].src` of `j`
(absolute sources pass through `download` unchanged, main.rs:433-437) — not
the player page URL `ILIAS_URL ++ pageRef` fetched at main.rs:667. -/
theorem video_download_url_from_json (force destExists : Bool) (cap : String)
    (parseJson : String → Option Json) (j : Json) (src pageRef : String)
    (hgate : force = true ∨ destExists = false)
    (hp : parseJson (trimS (xoctTruncate cap)) = some j)
    (hs : xoctMp4Src j = some src)
    (habs : startsWithS src "http" = true)
    (hne : src ≠ ILIAS_URL ++ pageRef) :
    videoProcess false force destExists (some cap) parseJson = VideoOutcome.download src ∧
    VideoOutcome.download src ≠ VideoOutcome.download (ILIAS_URL ++ pageRef) := by
  constructor
  · have hgate2 : ¬ (force = false ∧ destExists = true) := by
      rcases hgate with h | h <;> simp [h]
    simp [videoProcess, hgate2, hp, hs, resolveUrl, habs]
  · intro hEq
    injection hEq with h
    exact hne h

/-- C8 witness: a capture `"VIDEODATA,\n junk"` is truncated to
`"VIDEODATA"`, parsed to the example player JSON, and the downloaded URL is
its nested mp4 source `"https://host/clip.mp4"`, not the player page. -/
theorem video_download_url_from_json_witness :
    videoProcess false false false (some "VIDEODATA,\n junk") xoctParseExample =
      VideoOutcome.download "https://host/clip.mp4" ∧
    VideoOutcome.download "https://host/clip.mp4" ≠ VideoOutcome.download (ILIAS_URL ++ "ilias.php?playerpage") :=
  video_download_url_from_json false false "VIDEODATA,\n junk" xoctParseExample
    xoctJsonExample "https://host/clip.mp4" "ilias.php?playerpage"
    (Or.inr rfl) (by rfl) (by rfl) (by rfl) (by decide)

/-! ## C9 — content-tree failure and the join-prompt marker -/

/-- C9: with content-tree mode on and the `cmdNode` found, a failed
hierarchical tree fetch leads to a silent skip — success with no child tasks
and no warning — exactly when the fetched course page markup contains the
join-prompt marker `input[name="cmd[join]"` (main.rs:555-563); without the
marker it falls back to the flat listing with a warning. -/
theorem course_tree_failure_join_marker (pageHtml c : String) (flat : List Object) :
    courseContentStep true pageHtml (some c) none flat =
      some (if containsS pageHtml joinMarker then CourseOutcome.silentSkip
            else CourseOutcome.children true flat) := by
  unfold courseContentStep
  cases hb : containsS pageHtml joinMarker <;> simp [hb]

/-! ## C10 — totality of the reference-id extraction -/

/-- C10: a `target` beginning with `crs_`, `frm_` or `fold_` contains an
underscore, so `target.split('_').nth(1)` (modelled by `secondSeg`, used at
main.rs:156/165/180 inside `from_link`) is always `Some` — the `unwrap`
cannot panic under the prefix precondition. -/
theorem ref_id_extraction_total (t : String)
    (h : (∃ r : String, t = "crs_" ++ r) ∨ (∃ r : String, t = "frm_" ++ r) ∨
      (∃ r : String, t = "fold_" ++ r)) :
    (secondSeg t).isSome = true := by
  have key : ∀ (pre rs : List Char), ('_' : Char) ∉ pre →
      (secondSeg (String.mk (pre ++ '_' :: rs))).isSome = true := by
    intro pre rs hp
    obtain ⟨s, ss, -, h2⟩ := secondSeg_of_seg pre rs hp
    simp [h2]
  rcases h with ⟨r, rfl⟩ | ⟨r, rfl⟩ | ⟨r, rfl⟩
  · rw [show ("crs_" ++ r) = String.mk (['c', 'r', 's'] ++ '_' :: r.data) by obtain ⟨l⟩ := r; rfl]
    exact key _ _ (by decide)
  · rw [show ("frm_" ++ r) = String.mk (['f', 'r', 'm'] ++ '_' :: r.data) by obtain ⟨l⟩ := r; rfl]
    exact key _ _ (by decide)
  · rw [show ("fold_" ++ r) = String.mk (['f', 'o', 'l', 'd'] ++ '_' :: r.data) by obtain ⟨l⟩ := r; rfl]
    exact key _ _ (by decide)

/-- C10 witness: the extraction succeeds on the concrete target
`"crs_1234_"`. -/
theorem ref_id_extraction_total_witness : (secondSeg "crs_1234_").isSome = true :=
  ref_id_extraction_total "crs_1234_" (Or.inl ⟨"1234_", rfl⟩)
